import Mathlib

/-!
Shallow embedding of src/utils/excel.ts (mocap_app), the spreadsheet
time-series extraction module.  JavaScript numbers are modelled as
`Option ℚ` where `none` stands for a non-finite value (NaN or an
infinity): every consumer in the source guards values with
`Number.isFinite` before use, so the distinction between NaN and the
infinities is unobservable in this module.  Cells decoded from a sheet
are `string | number | null`; the row arrays handed back by
`sheet_to_json` are modelled as `Option (List Cell)` because the source
guards against null or missing rows.  Workbook decoding (the external
`xlsx.read`) is modelled by taking an already-decoded workbook wrapped
in `Except String`, whose `error` case stands for a thrown decode error
caught by the try/catch of the source.
-/

/- The Batteries rational arithmetic is `@[irreducible]`, which blocks
kernel evaluation inside `decide`; restore the default reducibility for
this file so concrete workbooks evaluate. -/
attribute [local semireducible] Rat.add Rat.sub Rat.mul Rat.inv

/-- A raw spreadsheet cell: string, number, or null.  A missing
(undefined) cell is represented by `Option Cell` = `none` at use sites. -/
inductive Cell where
  | str (s : String)
  | num (q : Option ℚ)
  | null
deriving DecidableEq

/-- Boolean infix test on character lists (regex "contains" tests). -/
def infixB (sub : List Char) : List Char → Bool
  | [] => sub.isEmpty
  | c :: rest => sub.isPrefixOf (c :: rest) || infixB sub rest

/-- Whitespace trim on both ends (JavaScript `trim`), defined on the
character list so that it evaluates inside the kernel. -/
def jsTrim (s : String) : String :=
  ⟨((s.data.dropWhile Char.isWhitespace).reverse.dropWhile
      Char.isWhitespace).reverse⟩

/-- ASCII lower-casing (JavaScript `toLowerCase` restricted to the ASCII
inputs this module meets), defined on the character list so that it
evaluates inside the kernel. -/
def jsLower (s : String) : String :=
  ⟨s.data.map Char.toLower⟩

/-- Case-insensitive "contains" used for the /.../i regex tests of the
source. -/
def containsIC (s pat : String) : Bool :=
  infixB pat.data (jsLower s).data

/-- Remove every whitespace character, modelling `replace(/\s+/g, "")`. -/
def wsStrip (s : String) : String :=
  ⟨s.data.filter (fun c => !c.isWhitespace)⟩

/-- Remove every comma, modelling `replace(/,/g, "")`. -/
def stripCommas (s : String) : String :=
  ⟨s.data.filter (fun c => !(c == ','))⟩

/-- Numeric value of a decimal digit character. -/
def charDigit (c : Char) : Nat := c.toNat - 48

/-- Value of a list of decimal digit characters, most significant first. -/
def digitsVal (l : List Char) : ℚ :=
  l.foldl (fun acc c => acc * 10 + (charDigit c : ℚ)) 0

/-- Exponent part of a JavaScript numeric literal: optional sign then at
least one digit, consuming the whole rest of the string. -/
def parseExpPart (mant : ℚ) (r : List Char) : Option ℚ :=
  let se : ℤ × List Char :=
    match r with
    | '-' :: t => (-1, t)
    | '+' :: t => (1, t)
    | _ => (1, r)
  let ed := se.2.takeWhile Char.isDigit
  let r2 := se.2.dropWhile Char.isDigit
  if ed.isEmpty || !r2.isEmpty then none
  else some (mant * (10 : ℚ) ^ (se.1 * ((digitsVal ed).num)))

/-- Core of the JavaScript `Number(string)` coercion on a trimmed,
non-empty character list: sign, integer digits, optional fraction,
optional exponent.  Returns `none` for NaN.  Exotic literal forms
(hexadecimal, octal, binary, the Infinity literals) are conflated with
NaN; no theorem below depends on such inputs, and an infinite result is
indistinguishable from NaN behind the Number.isFinite guards used by
every consumer in the source. -/
def jsNumberCore (l : List Char) : Option ℚ :=
  let sl : ℚ × List Char :=
    match l with
    | '-' :: r => (-1, r)
    | '+' :: r => (1, r)
    | _ => (1, l)
  let ip := sl.2.takeWhile Char.isDigit
  let l2 := sl.2.dropWhile Char.isDigit
  let fpRest : List Char × List Char :=
    match l2 with
    | '.' :: r => (r.takeWhile Char.isDigit, r.dropWhile Char.isDigit)
    | _ => ([], l2)
  let fp := fpRest.1
  let l3 := fpRest.2
  if ip.isEmpty && fp.isEmpty then none
  else
    let mant : ℚ := sl.1 * (digitsVal ip + digitsVal fp / (10 : ℚ) ^ fp.length)
    match l3 with
    | [] => some mant
    | 'e' :: r => parseExpPart mant r
    | 'E' :: r => parseExpPart mant r
    | _ => none

/-- JavaScript `Number(string)`: trims, the empty string coerces to 0. -/
def jsNumber (s : String) : Option ℚ :=
  let t := jsTrim s
  if t == "" then some 0 else jsNumberCore t.data

/-- `toNumber` from the source (also the local `num` helper of
`normalizeSheet`, whose body is identical): a number passes through, a
null (or undefined) cell is NaN, a string is trimmed, has commas
stripped, and is coerced via `Number`; the trailing
`Number.isFinite(n) ? n : NaN` guard is the identity in this model. -/
def toNumber : Cell → Option ℚ
  | .num q => q
  | .null => none
  | .str s => jsNumber (stripCommas (jsTrim s))

/-- `toNumber` lifted to a possibly-missing (undefined) cell. -/
def cellToNumber : Option Cell → Option ℚ
  | none => none
  | some c => toNumber c

/-- The `n > bound` comparison on a JavaScript number: false for NaN.
Matches patterns like `Number.isFinite(n) && n > 50`. -/
def qGt (o : Option ℚ) (bound : ℚ) : Bool :=
  match o with
  | some q => decide (bound < q)
  | none => false

/-- Association list with JavaScript `Map` semantics: `set` overwrites
the value of an existing key in place (keeping its original position in
iteration order) and appends a fresh key at the end. -/
def amGet {α : Type} (m : List (String × α)) (k : String) : Option α :=
  (m.find? (fun p => p.1 == k)).map (fun p => p.2)

/-- JavaScript `Map.set`. -/
def amSet {α : Type} : List (String × α) → String → α → List (String × α)
  | [], k, v => [(k, v)]
  | p :: rest, k, v => if p.1 == k then (k, v) :: rest else p :: amSet rest k v

/-- The fixed whitelist roles. -/
inductive Role where
  | pitcher
  | hitter
deriving DecidableEq

/-- `NEEDED_MAP`: the static per-role whitelist of (label, key) pairs. -/
def NEEDED_MAP : Role → List (String × String)
  | .pitcher =>
    [("Pelvis Twist Velocity", "/Calc/Pelvis/Twist/Velocity_x"),
     ("Shoulder Twist Velocity", "/Calc/Shoulder/Twist/Velocity_x"),
     ("Elbow Flexion/Extension Velocity, dominant",
      "/Calc/Elbow/Dominant/FlexionExtension/Velocity_x"),
     ("Shoulder Rotation Velocity, dominant",
      "/Calc/Shoulder/Dominant/Rotation/Velocity_x"),
     ("Shoulder Horizontal, dominant", "/Calc/Shoulder/Dominant/Horizontal_x"),
     ("Shoulder Elevation, dominant", "/Calc/Shoulder/Dominant/Elevation_x"),
     ("Shoulder Rotation, dominant", "/Calc/Shoulder/Dominant/Rotation_x"),
     ("Elbow Flexion/Extension, dominant",
      "/Calc/Elbow/Dominant/FlexionExtension_x"),
     ("Trunk Tilt left/right", "/Calc/Trunk/Tilt/LeftRight_x"),
     ("Shoulder Twist", "/Calc/Shoulder/Twist_x"),
     ("Pelvis Twist", "/Calc/Pelvis/Twist_x"),
     ("Trunk Separation", "/Calc/Trunk/Separation_x"),
     ("Knee Flexion/Extension, lead", "/Calc/Knee/Lead/FlexionExtension_x"),
     ("Center of Gravity Velocity, Y", "/Calc/CenterOfGravity/VelocityY_x")]
  | .hitter =>
    [("Shoulder Twist Velocity", "/Calc/Shoulder/Twist/Velocity_x"),
     ("Pelvis Twist Velocity", "/Calc/Pelvis/Twist/Velocity_x"),
     ("Elbow Dominant Flexion/Extension Velocity",
      "/Calc/Elbow/Dominant/FlexionExtension/Velocity_x"),
     ("Trunk Separation", "/Calc/Trunk/Separation_x"),
     ("Shoulder Other Horizontal", "/Calc/Shoulder/Other/Horizontal_x"),
     ("Trunk Tilt Left/Right", "/Calc/Trunk/Tilt/LeftRight_x"),
     ("Hip Plant Internal/External", "/Calc/Hip/Plant/InternalExternal_x"),
     ("Shoulder Twist", "/Calc/Shoulder/Twist_x"),
     ("Hip Lead Internal/External", "/Calc/Hip/Lead/InternalExternal_x"),
     ("Trunk Tilt Forwards/Backwards",
      "/Calc/Trunk/Tilt/ForwardsBackwards_x"),
     ("Shoulder Dominant Horizontal", "/Calc/Shoulder/Dominant/Horizontal_x"),
     ("Shoulder Dominant Rotation", "/Calc/Shoulder/Dominant/Rotation_x"),
     ("Pelvis Tilt Left/Right", "/Calc/Pelvis/Tilt/LeftRight_x"),
     ("Center of Gravity Velocity Z", "/Calc/CenterOfGravity/VelocityZ_x")]

/-- `HEADER_ALIASES`: header variants and typos mapped to the canonical
key. -/
def HEADER_ALIASES : List (String × String) :=
  [("/Calc/Elbow/Dominant/Flexion/Extension/Velocity_x",
    "/Calc/Elbow/Dominant/FlexionExtension/Velocity_x"),
   ("/Calc/Elbow/Dominant/Flexion/Extenstion/Velocity_x",
    "/Calc/Elbow/Dominant/FlexionExtension/Velocity_x"),
   ("/Calc/Elbow/Dominant/Flexion/Extension_x",
    "/Calc/Elbow/Dominant/FlexionExtension_x"),
   ("/Calc/Wrist/Dominant/Flexion/Extension/Velocity_x",
    "/Calc/Wrist/Dominant/FlexionExtension/Velocity_x"),
   ("/Calc/Knee/Lead/Flexion/Extension_x",
    "/Calc/Knee/Lead/FlexionExtension_x")]

/-- The column index of a sheet: trimmed header string to position, with
JavaScript `Map` iteration order. -/
abbrev ColIndex : Type := List (String × Nat)

/-- `getColIndexWithAliases`: exact lookup, then alias lookup, then the
permissive whitespace-insensitive scan over the entries in insertion
order; -1 when nothing matches. -/
def getColIndexWithAliases (colIndex : ColIndex) (key : String) : Int :=
  match amGet colIndex key with
  | some i => (i : Int)
  | none =>
    let fallback : Int :=
      match List.find? (fun p => wsStrip p.1 == wsStrip key) colIndex with
      | some p => (p.2 : Int)
      | none => -1
    match amGet HEADER_ALIASES key with
    | some al =>
      match amGet colIndex al with
      | some j => (j : Int)
      | none => fallback
    | none => fallback

/-- A decoded sheet as produced by `sheet_to_json` with `header: 1`: a
list of rows, each possibly null/undefined (the source guards with
`!row`). -/
abbrev Grid : Type := List (Option (List Cell))

/-- A decoded workbook: the ordered sheet names and the sheet
dictionary.  A name missing from the dictionary models the
`!ws` (unreadable sheet) case of the source. -/
structure Workbook where
  sheetNames : List String
  sheets : List (String × Grid)

/-- One extracted metric column. -/
structure SeriesL where
  label : String
  key : String
  values : List (Option ℚ)
deriving DecidableEq

/-- Aligned time and metric sequences of one role. -/
structure NeededMetricsL where
  time : List (Option ℚ)
  series : List SeriesL
deriving DecidableEq

/-- The tagged result of the needed-metrics path. -/
inductive NeededParseResult where
  | ok (pitcher : NeededMetricsL) (hitter : NeededMetricsL)
      (warnings : List String)
  | fail (why : String) (warnings : List String)
deriving DecidableEq

/-- A single apostrophe, kept out of string literals. -/
def quoteS : String := String.singleton (Char.ofNat 39)

/-- Failure reason for a workbook without sheets. -/
def noSheetsMsg : String := "No sheets found in workbook."

/-- Failure reason for an unreadable selected sheet. -/
def unreadableMsg (n : String) : String :=
  "Sheet " ++ quoteS ++ n ++ quoteS ++ " is empty or unreadable."

/-- Failure reason for a selected sheet without rows. -/
def noDataMsg (n : String) : String :=
  "Sheet " ++ quoteS ++ n ++ quoteS ++ " has no data."

/-- Warning when the Time column cannot be resolved. -/
def timeWarnMsg : String :=
  "Could not find " ++ quoteS ++ "Time" ++ quoteS ++ " column; times will be NaN."

/-- Failure reason when both series lists are empty. -/
def noMetricsMsg : String := "No needed metrics could be extracted."

/-- The /baseball/i test on a sheet name. -/
def testBaseball (s : String) : Bool := containsIC s "baseball"

/-- Scan for "data" with no line terminator in between, modelling the
`.*` of /baseball.*data/i (the dot does not match line terminators). -/
def bdAfterScan : List Char → Bool
  | [] => false
  | c :: rest =>
    "data".data.isPrefixOf (c :: rest) ||
      (!(c.toNat == 10 || c.toNat == 13 || c.toNat == 8232 ||
         c.toNat == 8233) && bdAfterScan rest)

/-- Scan for an occurrence of "baseball" followed (same line) by
"data". -/
def bdScan : List Char → Bool
  | [] => false
  | c :: rest =>
    ("baseball".data.isPrefixOf (c :: rest) &&
      bdAfterScan ((c :: rest).drop 8)) || bdScan rest

/-- The /baseball.*data/i test on a sheet name. -/
def testBaseballData (s : String) : Bool := bdScan (jsLower s).data

/-- JavaScript `a ?? b` on option values. -/
def jsOr {α : Type} (a b : Option α) : Option α :=
  match a with
  | some x => some x
  | none => b

/-- Sheet-name selection of the needed-metrics path: prefer
/baseball.*data/i, else /baseball/i, else the first sheet. -/
def selectSheetName (wb : Workbook) : Option String :=
  jsOr (wb.sheetNames.find? testBaseballData)
    (jsOr (wb.sheetNames.find? testBaseball) wb.sheetNames.head?)

/-- Dictionary access `wb.Sheets[sheetName]`. -/
def lookupSheet (wb : Workbook) (name : String) : Option Grid :=
  amGet wb.sheets name

/-- `table[i] ?? []`: a missing or null row reads as the empty row. -/
def getRow (table : Grid) : Nat → List Cell :=
  fun i => (List.getD table i none).getD []

/-- True of a string cell whose trimmed content is "time"
case-insensitively (the /^time$/i test). -/
def isTimeHeaderCell : Cell → Bool
  | .str s => jsLower (jsTrim s) == "time"
  | _ => false

/-- Trim string cells, keep other cells unchanged. -/
def trimStrCell : Cell → Cell
  | .str s => .str (jsTrim s)
  | c => c

/-- `findHeaderRowWithTime`: within the first min(20, rows) rows, the
first row holding a cell exactly matching "time" case-insensitively
after trimming; the first row of the grid otherwise.  The returned
header has its string cells trimmed. -/
def findHeaderRowWithTime (table : Grid) : Nat × List Cell :=
  match (List.range (min table.length 20)).find?
      (fun i => (getRow table i).any isTimeHeaderCell) with
  | some i => (i, (getRow table i).map trimStrCell)
  | none => (0, (getRow table 0).map trimStrCell)

/-- Build the column index from a header row: every string cell is
trimmed and mapped to its position; later duplicates overwrite. -/
def mkColIndexAux : List Cell → Nat → ColIndex → ColIndex
  | [], _, m => m
  | c :: rest, i, m =>
    mkColIndexAux rest (i + 1)
      (match c with
       | .str s => amSet m (jsTrim s) i
       | _ => m)

/-- The column index of a header row. -/
def mkColIndex (header : List Cell) : ColIndex :=
  mkColIndexAux header 0 []

/-- Whether a data row survives the `!row || !row.length` guard. -/
def rowKept : Option (List Cell) → Bool
  | none => false
  | some cells => !cells.isEmpty

/-- The time value contributed by one kept row:
`timeIdx >= 0 ? toNumber(row[timeIdx]) : NaN` behind an isFinite
guard. -/
def timeEntry (timeIdx : Int) (cells : List Cell) : Option ℚ :=
  if 0 ≤ timeIdx then cellToNumber (cells.get? timeIdx.toNat) else none

/-- The value contributed by one kept row to the series of a key. -/
def colEntry (colIndex : ColIndex) (key : String) (cells : List Cell) :
    Option ℚ :=
  let idx := getColIndexWithAliases colIndex key
  if 0 ≤ idx then cellToNumber (cells.get? idx.toNat) else none

/-- The data-row loop of `buildRole`: walks the rows after the header,
skipping null or zero-length rows; each kept row appends one time entry
(only while the pitcher role is processed, mirroring the shared `time`
array of the source) and one value per whitelist entry.  Returns the
accumulated time entries and, per whitelist entry, its value list. -/
def roleLoop (spec : List (String × String)) (colIndex : ColIndex)
    (timeIdx : Int) (isPitcher : Bool) :
    List (Option (List Cell)) → List (Option ℚ) × List (List (Option ℚ))
  | [] => ([], spec.map (fun _ => []))
  | r :: rest =>
    let acc := roleLoop spec colIndex timeIdx isPitcher rest
    match r with
    | none => acc
    | some cells =>
      if cells.isEmpty then acc
      else
        ((if isPitcher then timeEntry timeIdx cells :: acc.1 else acc.1),
         List.zipWith (fun (p : String × String) vs =>
           colEntry colIndex p.2 cells :: vs) spec acc.2)

/-- Pair the whitelist with the per-entry value lists. -/
def mkSeriesList (spec : List (String × String))
    (lists : List (List (Option ℚ))) : List SeriesL :=
  List.zipWith (fun (p : String × String) vs => SeriesL.mk p.1 p.2 vs)
    spec lists

/-- The missing-column warnings appended after building one role. -/
def missingWarnings (colIndex : ColIndex)
    (spec : List (String × String)) : List String :=
  spec.filterMap (fun p =>
    if getColIndexWithAliases colIndex p.2 < 0 then
      some ("Missing column in sheet: " ++ p.2)
    else none)

/-- The body of `parseWorkbookToNeededMetrics` on a successfully decoded
workbook. -/
def parseCore (wb : Workbook) : NeededParseResult :=
  match selectSheetName wb with
  | none => .fail noSheetsMsg []
  | some name =>
    match lookupSheet wb name with
    | none => .fail (unreadableMsg name) []
    | some table =>
      if table.length = 0 then .fail (noDataMsg name) []
      else
        let fh := findHeaderRowWithTime table
        let colIndex := mkColIndex fh.2
        let timeIdx := getColIndexWithAliases colIndex "Time"
        let warnings0 := if timeIdx < 0 then [timeWarnMsg] else []
        let dataRows := table.drop (fh.1 + 1)
        let p := roleLoop (NEEDED_MAP .pitcher) colIndex timeIdx true dataRows
        let hh := roleLoop (NEEDED_MAP .hitter) colIndex timeIdx false dataRows
        let pitcher : NeededMetricsL :=
          ⟨p.1, mkSeriesList (NEEDED_MAP .pitcher) p.2⟩
        let hitter : NeededMetricsL :=
          ⟨p.1, mkSeriesList (NEEDED_MAP .hitter) hh.2⟩
        let warnings := warnings0 ++
          missingWarnings colIndex (NEEDED_MAP .pitcher) ++
          missingWarnings colIndex (NEEDED_MAP .hitter)
        if pitcher.series.length = 0 ∧ hitter.series.length = 0 then
          .fail noMetricsMsg warnings
        else .ok pitcher hitter warnings

/-- `parseWorkbookToNeededMetrics`: the surrounding try/catch turns a
decode error into a structured failure; the rest of the body is the
total function `parseCore`. -/
def parseWorkbookToNeededMetrics (decoded : Except String Workbook) :
    NeededParseResult :=
  match decoded with
  | .error e => .fail e []
  | .ok wb => parseCore wb

/-- `parseExcelToNeededMetrics`: the safe wrapper; the outer layer of
`Except` stands for the byte acquisition (`file.arrayBuffer()`), whose
thrown error is likewise caught and reported. -/
def parseExcelToNeededMetrics
    (acquired : Except String (Except String Workbook)) :
    NeededParseResult :=
  match acquired with
  | .error e => .fail e []
  | .ok d => parseWorkbookToNeededMetrics d

/-- An objectified row of the generic path: column key to raw cell, in
insertion order, with distinct keys when built by `toObjects`. -/
abbrev JsObj : Type := List (String × Cell)

/-- Property access `r[k]`; `none` is `undefined`. -/
def objGet (r : JsObj) (k : String) : Option Cell :=
  amGet r k

/-- `Object.keys` in insertion order (first occurrence wins; the
numeric-key reordering of JavaScript objects is irrelevant here because
no caller uses integer-like column names). -/
def dedupFirst : List String → List String → List String
  | [], _ => []
  | k :: rest, seen =>
    if seen.contains k then dedupFirst rest seen
    else k :: dedupFirst rest (k :: seen)

/-- The keys of the first row, driving all key inference of
`normalizeSheet`. -/
def nsKeys (rowsRaw : List JsObj) : List String :=
  dedupFirst ((rowsRaw.head?.getD []).map (fun p => p.1)) []

/-- The /^(t|time)$/i test on a key. -/
def isTimeNameKey (k : String) : Bool :=
  jsLower k == "t" || jsLower k == "time"

/-- The /timestamp/i test on a key. -/
def hasTimestampKey (k : String) : Bool := containsIC k "timestamp"

/-- The /(ms|millisecond)/i test on a key. -/
def isMsKey (k : String) : Bool :=
  containsIC k "ms" || containsIC k "millisecond"

/-- The frame-key test: /^frame(s)?$/i or /frame ?index/i. -/
def isFrameKey (k : String) : Bool :=
  (jsLower k == "frame" || jsLower k == "frames") ||
    containsIC k "frame index" || containsIC k "frameindex"

/-- `timeKey`: a key exactly matching t/time, else a key containing
timestamp (the `||` of the source falls through only on `undefined`
since a matching key is a non-empty string). -/
def timeKeyFind (rowsRaw : List JsObj) : Option String :=
  jsOr ((nsKeys rowsRaw).find? isTimeNameKey)
    ((nsKeys rowsRaw).find? hasTimestampKey)

/-- `msKey`. -/
def msKeyFind (rowsRaw : List JsObj) : Option String :=
  (nsKeys rowsRaw).find? isMsKey

/-- `frameKey`. -/
def frameKeyFind (rowsRaw : List JsObj) : Option String :=
  (nsKeys rowsRaw).find? isFrameKey

/-- The `Number(x)` coercion used by `averageDelta` on a raw property
value: numbers pass through, null coerces to 0, undefined to NaN, and
strings are coerced without comma stripping. -/
def jsNumberCoerce : Option Cell → Option ℚ
  | none => none
  | some (.num q) => q
  | some .null => some 0
  | some (.str s) => jsNumber s

/-- Sum of absolute successive differences. -/
def sumAbsDiffs : List ℚ → ℚ
  | [] => 0
  | [_] => 0
  | a :: b :: rest => |b - a| + sumAbsDiffs (b :: rest)

/-- `averageDelta`: mean absolute successive difference of the finite
numeric values of a column; NaN when fewer than two values exist. -/
def averageDelta (rows : List JsObj) (key : String) : Option ℚ :=
  let vals := rows.filterMap (fun r => jsNumberCoerce (objGet r key))
  if vals.length < 2 then none
  else some (sumAbsDiffs vals / ((vals.length : ℚ) - 1))

/-- The effective frames-per-second:
`fpsGuess && Number.isFinite(fpsGuess) ? fpsGuess : 120` (0 and NaN both
fall back to 120). -/
def effFps (fpsGuess : Option ℚ) : ℚ :=
  match fpsGuess with
  | some q => if q = 0 then 120 else q
  | none => 120

/-- The timestamp baseline `ts0`: when no time key exists but a
timestamp key does, the first non-null cell of that column is parsed (a
number directly, anything else through `Date.parse`, supplied here as
the host function `dateParse`); a finite parse becomes the baseline,
otherwise 0 stays.  Dead in practice: a present timestamp key always
makes `timeKey` itself non-null. -/
def ts0Of (rowsRaw : List JsObj) (dateParse : String → Option ℚ) : ℚ :=
  match timeKeyFind rowsRaw, (nsKeys rowsRaw).find? hasTimestampKey with
  | none, some k =>
    let firstCell : Option Cell :=
      match rowsRaw.find? (fun r =>
        match objGet r k with
        | some .null => false
        | none => false
        | some _ => true) with
      | some r => objGet r k
      | none => none
    let p : Option ℚ :=
      match firstCell with
      | some (.num q) => q
      | some (.str s) => dateParse s
      | some .null => none
      | none => dateParse "undefined"
    match p with
    | some v => v
    | none => 0
  | _, _ => 0

/-- The per-row time resolution of `normalizeSheet`. -/
def rowT (rowsRaw : List JsObj) (fpsGuess : Option ℚ)
    (dateParse : String → Option ℚ) (r : JsObj) : Option ℚ :=
  match timeKeyFind rowsRaw with
  | some tk =>
    let n := cellToNumber (objGet r tk)
    let looksMs := (msKeyFind rowsRaw).isSome ||
      (qGt n 50 && qGt (averageDelta rowsRaw tk) 10)
    if looksMs then n.map (fun x => x / 1000) else n
  | none =>
    match frameKeyFind rowsRaw with
    | some fk =>
      (cellToNumber (objGet r fk)).map (fun f => f / effFps fpsGuess)
    | none =>
      match (nsKeys rowsRaw).find? hasTimestampKey with
      | some k =>
        let p : Option ℚ :=
          match objGet r k with
          | some (.num q) => q
          | some (.str s) => dateParse s
          | some .null => dateParse "null"
          | none => dateParse "undefined"
        p.map (fun v => (v - ts0Of rowsRaw dateParse) / 1000)
      | none => none

/-- An output row of the generic path: the `t` field plus the surviving
numeric fields (non-finite parses are dropped, not kept as NaN). -/
structure RowL where
  t : Option ℚ
  fields : List (String × ℚ)
deriving DecidableEq

/-- The non-time numeric fields copied into one output row. -/
def rowFields (rowsRaw : List JsObj) (r : JsObj) : List (String × ℚ) :=
  (nsKeys rowsRaw).filterMap (fun k =>
    if timeKeyFind rowsRaw == some k || msKeyFind rowsRaw == some k ||
        frameKeyFind rowsRaw == some k then none
    else (cellToNumber (objGet r k)).map (fun n => (k, n)))

/-- `normalizeSheet`: one output row per input row, carrying the
resolved `t` and the surviving numeric fields.  `dateParse` stands for
the host `Date.parse`. -/
def normalizeSheet (rowsRaw : List JsObj) (fpsGuess : Option ℚ)
    (dateParse : String → Option ℚ) : List RowL :=
  if rowsRaw.isEmpty then []
  else rowsRaw.map (fun r =>
    RowL.mk (rowT rowsRaw fpsGuess dateParse r)
      (rowFields rowsRaw r))

/-- True of a non-empty string cell
(`typeof c === "string" && c.trim() !== ""`). -/
def isNonEmptyStrCell : Cell → Bool
  | .str s => !(jsTrim s == "")
  | _ => false

/-- The /^(t|time|timestamp)$/i test on a trimmed string cell. -/
def isTimeScoreCell : Cell → Bool
  | .str s =>
    jsLower (jsTrim s) == "t" || jsLower (jsTrim s) == "time" ||
      jsLower (jsTrim s) == "timestamp"
  | _ => false

/-- The /frame/i test on a trimmed string cell. -/
def isFrameScoreCell : Cell → Bool
  | .str s => containsIC (jsTrim s) "frame"
  | _ => false

/-- The header-candidate score of one row: one point per non-empty
string cell, +3 for a time-ish cell, +2 for a frame-ish cell, −3 when at
most one non-empty string cell exists. -/
def rowScore (row : List Cell) : ℤ :=
  let nonEmpty : ℤ := ((row.filter isNonEmptyStrCell).length : ℤ)
  let base : ℤ := nonEmpty + (if row.any isTimeScoreCell then 3 else 0) +
    (if row.any isFrameScoreCell then 2 else 0)
  if nonEmpty ≤ 1 then base - 3 else base

/-- The selection loop of `detectHeaderAndExtract`: strict improvement
over the running best, which starts at score −1 and index 0. -/
def selLoop : List ℤ → Nat → ℤ → Nat → Nat
  | [], _, _, bestIdx => bestIdx
  | s :: rest, i, bestScore, bestIdx =>
    if bestScore < s then selLoop rest (i + 1) s i
    else selLoop rest (i + 1) bestScore bestIdx

/-- The scores of the scanned rows (the first min(20, rows) rows). -/
def scanScores (table : Grid) : List ℤ :=
  (table.take 20).map (fun r => rowScore (r.getD []))

/-- The header row index chosen by `detectHeaderAndExtract`. -/
def detectBestIdx (table : Grid) : Nat :=
  selLoop (scanScores table) 0 (-1) 0

/-- `String(v)` on a raw header cell with `v == null ? "" : String(v)`:
null and undefined become the empty string.  Number formatting follows
JavaScript on integral values; non-integral and non-finite payloads are
rendered approximately — no theorem below touches a grid whose chosen
header row holds a non-integral number cell. -/
def jsStringOfCell : Cell → String
  | .null => ""
  | .str s => s
  | .num none => "NaN"
  | .num (some x) =>
    if x.den = 1 then
      (if x.num < 0 then "-" ++ x.num.natAbs.repr else x.num.natAbs.repr)
    else x.num.repr ++ "/" ++ x.den.repr

/-- Canonicalization of one raw header label: trim, then rewrite
frame/timestamp/time variants to their canonical names. -/
def canonicalizeHeader (h : String) : String :=
  let s := jsTrim h
  if jsLower s == "frame" || jsLower s == "frames" then "Frame"
  else if jsLower s == "timestamp" then "Timestamp"
  else if jsLower s == "t" || jsLower s == "time" then "Time"
  else s

/-- The sequential worker of `dedupeHeaders`: the `seen` map carries the
occurrence count per base label; empty labels pass through untouched,
the first occurrence of a base keeps it, occurrence n is rendered as
base followed by a parenthesized n. -/
def dedupeAux : List String → List (String × Nat) → List String
  | [], _ => []
  | h :: rest, seen =>
    if h == "" then h :: dedupeAux rest seen
    else
      let c := (amGet seen h).getD 0 + 1
      (if c = 1 then h else h ++ " (" ++ Nat.repr c ++ ")") ::
        dedupeAux rest (amSet seen h c)

/-- `dedupeHeaders`. -/
def dedupeHeaders (headers : List String) : List String :=
  dedupeAux headers []

/-- The header cleanup of `detectHeaderAndExtract`: canonicalize then
dedupe. -/
def cleanupHeaders (raw : List String) : List String :=
  dedupeHeaders (raw.map canonicalizeHeader)

/-- `detectHeaderAndExtract`: headers from the winning row after
stringification and cleanup, data rows are everything below it. -/
def detectHeaderAndExtract (table : Grid) : List String × Grid :=
  let bestIdx := detectBestIdx table
  let headers := cleanupHeaders ((getRow table bestIdx).map jsStringOfCell)
  (headers, table.drop (bestIdx + 1))

/-- The data rows surviving the `!row || !row.length` guard. -/
def keptRows : List (Option (List Cell)) → List (List Cell) :=
  List.filterMap (fun r =>
    match r with
    | none => none
    | some cells => if cells.isEmpty then none else some cells)

theorem zipWith_cons_map {α β γ : Type} (f : α → β) (g : α → β → γ) :
    ∀ l : List α, List.zipWith g l (l.map f) = l.map (fun a => g a (f a)) := by
  intro l
  induction l with
  | nil => rfl
  | cons a rest ih => simp [List.zipWith, ih]

theorem roleLoop_eq (spec : List (String × String)) (colIndex : ColIndex)
    (timeIdx : Int) (isPitcher : Bool) (rows : List (Option (List Cell))) :
    roleLoop spec colIndex timeIdx isPitcher rows =
      ((if isPitcher then (keptRows rows).map (timeEntry timeIdx) else []),
       spec.map (fun p => (keptRows rows).map (colEntry colIndex p.2))) := by
  induction rows with
  | nil =>
    cases isPitcher <;> simp [roleLoop, keptRows]
  | cons r rest ih =>
    cases r with
    | none =>
      have h1 : roleLoop spec colIndex timeIdx isPitcher (none :: rest) =
          roleLoop spec colIndex timeIdx isPitcher rest := rfl
      have h2 : keptRows (none :: rest) = keptRows rest := rfl
      rw [h1, h2, ih]
    | some cells =>
      by_cases hc : cells.isEmpty
      · have h1 : roleLoop spec colIndex timeIdx isPitcher
            (some cells :: rest) =
            roleLoop spec colIndex timeIdx isPitcher rest := by
          simp [roleLoop, hc]
        have hc' : cells = [] := by simpa using hc
        have h2 : keptRows (some cells :: rest) = keptRows rest := by
          simp [keptRows, hc']
        rw [h1, h2, ih]
      · have h1 : roleLoop spec colIndex timeIdx isPitcher
            (some cells :: rest) =
            ((if isPitcher then
                timeEntry timeIdx cells ::
                  (roleLoop spec colIndex timeIdx isPitcher rest).1
              else (roleLoop spec colIndex timeIdx isPitcher rest).1),
             List.zipWith (fun (p : String × String) vs =>
               colEntry colIndex p.2 cells :: vs) spec
               (roleLoop spec colIndex timeIdx isPitcher rest).2) := by
          simp [roleLoop, hc]
        have hc' : cells ≠ [] := by simpa using hc
        have h2 : keptRows (some cells :: rest) = cells :: keptRows rest := by
          simp [keptRows, hc']
        rw [h1, h2, ih]
        cases isPitcher <;> simp [zipWith_cons_map]

/-- On an ok result: both roles share one time sequence and every
series of either role is as long as it. -/
def resultOkAligned : NeededParseResult → Prop
  | .ok p h _ =>
    p.time = h.time ∧
      (∀ s ∈ p.series, s.values.length = p.time.length) ∧
      (∀ s ∈ h.series, s.values.length = h.time.length)
  | .fail _ _ => True

/-- Claim C1: whenever `parseWorkbookToNeededMetrics` returns an ok
result, the time array and every value array of both roles have one
common length, and the time sequence of the pitcher equals that of the
hitter by value: it is filled only while the pitcher role is built and
handed unchanged to the hitter role. -/
theorem parse_ok_time_series_aligned (decoded : Except String Workbook) :
    resultOkAligned (parseWorkbookToNeededMetrics decoded) := by
  cases decoded with
  | error e => trivial
  | ok wb =>
    show resultOkAligned (parseCore wb)
    unfold parseCore
    split
    · trivial
    · split
      · trivial
      · split
        · trivial
        · simp only [roleLoop_eq]
          split
          · trivial
          · refine ⟨rfl, ?_, ?_⟩ <;>
            · intro s hs
              simp only [mkSeriesList, zipWith_cons_map, List.mem_map] at hs
              obtain ⟨p, _, rfl⟩ := hs
              simp

/-- Claim C2: the needed-metrics path never lets an exception escape: a
decode error is caught and reported with its message, and the structural
failures (no sheets, unreadable selected sheet, sheet without rows) each
return a structured failure with a human-readable reason and an empty
warnings list, for the core parser and for its wrapper alike (both are
total functions of their decoded input in this model). -/
theorem parse_structural_failures :
    (∀ e, parseWorkbookToNeededMetrics (.error e) =
      NeededParseResult.fail e []) ∧
    (∀ wb : Workbook, wb.sheetNames = [] →
      parseWorkbookToNeededMetrics (.ok wb) =
        NeededParseResult.fail noSheetsMsg []) ∧
    (∀ (wb : Workbook) (n : String), selectSheetName wb = some n →
      lookupSheet wb n = none →
      parseWorkbookToNeededMetrics (.ok wb) =
        NeededParseResult.fail (unreadableMsg n) []) ∧
    (∀ (wb : Workbook) (n : String) (table : Grid),
      selectSheetName wb = some n → lookupSheet wb n = some table →
      table.length = 0 →
      parseWorkbookToNeededMetrics (.ok wb) =
        NeededParseResult.fail (noDataMsg n) []) ∧
    (∀ e, parseExcelToNeededMetrics (.error e) =
      NeededParseResult.fail e []) := by
  refine ⟨fun e => rfl, ?_, ?_, ?_, fun e => rfl⟩
  · intro wb h
    obtain ⟨ns, sh⟩ := wb
    simp only at h
    subst h
    rfl
  · intro wb n hsel hlk
    show parseCore wb = _
    unfold parseCore
    simp only [hsel, hlk]
  · intro wb n table hsel hlk hlen
    show parseCore wb = _
    unfold parseCore
    simp only [hsel, hlk, hlen, if_true]

/-- Witness for C2 at concrete inputs. -/
theorem parse_structural_failures_witness :
    parseWorkbookToNeededMetrics (.error "boom") =
      NeededParseResult.fail "boom" [] ∧
    parseWorkbookToNeededMetrics (.ok ⟨[], []⟩) =
      NeededParseResult.fail noSheetsMsg [] ∧
    parseWorkbookToNeededMetrics (.ok ⟨["S"], []⟩) =
      NeededParseResult.fail (unreadableMsg "S") [] ∧
    parseWorkbookToNeededMetrics (.ok ⟨["S"], [("S", [])]⟩) =
      NeededParseResult.fail (noDataMsg "S") [] ∧
    parseExcelToNeededMetrics (.error "net down") =
      NeededParseResult.fail "net down" [] := by
  refine ⟨parse_structural_failures.1 "boom",
    parse_structural_failures.2.1 ⟨[], []⟩ rfl,
    parse_structural_failures.2.2.1 ⟨["S"], []⟩ "S" rfl rfl,
    parse_structural_failures.2.2.2.1 ⟨["S"], [("S", [])]⟩ "S" []
      rfl rfl rfl,
    parse_structural_failures.2.2.2.2 "net down"⟩

/-- Claim C3: the column resolver works in exactly three tiers: an exact
hit returns its index; otherwise a present aliased key returns the
index of the alias; otherwise the first entry in insertion order whose
whitespace-stripped label equals the whitespace-stripped key wins; and
-1 is returned when no tier matches. -/
theorem getColIndexWithAliases_three_tier (colIndex : ColIndex)
    (key : String) :
    (∀ i, amGet colIndex key = some i →
      getColIndexWithAliases colIndex key = (i : Int)) ∧
    (amGet colIndex key = none →
      ∀ al j, amGet HEADER_ALIASES key = some al →
        amGet colIndex al = some j →
        getColIndexWithAliases colIndex key = (j : Int)) ∧
    (amGet colIndex key = none →
      (∀ al, amGet HEADER_ALIASES key = some al →
        amGet colIndex al = none) →
      getColIndexWithAliases colIndex key =
        (match List.find? (fun p => wsStrip p.1 == wsStrip key) colIndex with
         | some p => (p.2 : Int)
         | none => -1)) := by
  refine ⟨?_, ?_, ?_⟩
  · intro i hi
    simp [getColIndexWithAliases, hi]
  · intro h0 al j hal hj
    simp [getColIndexWithAliases, h0, hal, hj]
  · intro h0 hali
    cases hal : amGet HEADER_ALIASES key with
    | none => simp [getColIndexWithAliases, h0, hal]
    | some al => simp [getColIndexWithAliases, h0, hal, hali al hal]

/-- Witness for C3: one concrete resolution per tier and one for the
not-found sentinel. -/
theorem getColIndexWithAliases_three_tier_witness :
    getColIndexWithAliases [("X", 0)] "X" = 0 ∧
    getColIndexWithAliases
      [("/Calc/Elbow/Dominant/FlexionExtension/Velocity_x", 3)]
      "/Calc/Elbow/Dominant/Flexion/Extension/Velocity_x" = 3 ∧
    getColIndexWithAliases [("A B", 7)] "AB" = 7 ∧
    getColIndexWithAliases [("A B", 7)] "Z" = -1 := by
  refine ⟨(getColIndexWithAliases_three_tier [("X", 0)] "X").1 0 rfl,
    (getColIndexWithAliases_three_tier
        [("/Calc/Elbow/Dominant/FlexionExtension/Velocity_x", 3)]
        "/Calc/Elbow/Dominant/Flexion/Extension/Velocity_x").2.1 rfl
      "/Calc/Elbow/Dominant/FlexionExtension/Velocity_x" 3 rfl rfl, ?_, ?_⟩
  · have hnone : amGet HEADER_ALIASES "AB" = none := rfl
    have h := (getColIndexWithAliases_three_tier [("A B", 7)] "AB").2.2
      rfl (fun al hal => by rw [hnone] at hal; cases hal)
    rw [h]
    rfl
  · have hnone : amGet HEADER_ALIASES "Z" = none := rfl
    have h := (getColIndexWithAliases_three_tier [("A B", 7)] "Z").2.2
      rfl (fun al hal => by rw [hnone] at hal; cases hal)
    rw [h]
    rfl

/-- On a parse result: success with exactly 14 series per role. -/
def okSeriesCount : NeededParseResult → Prop
  | .ok p h _ => p.series.length = 14 ∧ h.series.length = 14
  | .fail _ _ => False

/-- Claim C9: once a sheet with at least one row has been decoded, the
"No needed metrics could be extracted." failure is unreachable: each
role maps over the static 14-entry whitelist, so both series lists
always have 14 entries, the emptiness test is always false, and the
parse returns ok. -/
theorem parse_no_metrics_unreachable (wb : Workbook) (name : String)
    (table : Grid) (hsel : selectSheetName wb = some name)
    (hlk : lookupSheet wb name = some table)
    (hlen : table.length ≠ 0) :
    okSeriesCount (parseWorkbookToNeededMetrics (.ok wb)) := by
  show okSeriesCount (parseCore wb)
  unfold parseCore
  simp only [hsel, hlk]
  rw [if_neg hlen]
  simp only [roleLoop_eq, mkSeriesList, zipWith_cons_map]
  split
  · next hzero =>
    exfalso
    simp [NEEDED_MAP] at hzero
  · show _ ∧ _
    constructor <;> simp [NEEDED_MAP]

/-- Witness for C9: a one-row sheet parses ok with 14 series per role. -/
theorem parse_no_metrics_unreachable_witness :
    selectSheetName ⟨["S"], [("S", [some [Cell.str "Time"]])]⟩ = some "S" ∧
    lookupSheet ⟨["S"], [("S", [some [Cell.str "Time"]])]⟩ "S" =
      some [some [Cell.str "Time"]] ∧
    okSeriesCount (parseWorkbookToNeededMetrics
      (.ok ⟨["S"], [("S", [some [Cell.str "Time"]])]⟩)) :=
  ⟨rfl, rfl,
   parse_no_metrics_unreachable ⟨["S"], [("S", [some [Cell.str "Time"]])]⟩
     "S" [some [Cell.str "Time"]] rfl rfl (by decide)⟩

/-- On a parse result: success whose warnings report the missing Time
column and whose time entries are all NaN, for both roles. -/
def okMissingTime : NeededParseResult → Prop
  | .ok p h w =>
    timeWarnMsg ∈ w ∧ (∀ x ∈ p.time, x = none) ∧ (∀ x ∈ h.time, x = none)
  | .fail _ _ => False

/-- Claim C5: when the selected sheet is non-empty but no Time column
resolves, the parse still succeeds, the warnings list carries the
missing-Time warning, and every time entry is NaN: the missing Time
column alone never produces a failure result. -/
theorem parse_missing_time_ok (wb : Workbook) (name : String)
    (table : Grid) (hsel : selectSheetName wb = some name)
    (hlk : lookupSheet wb name = some table) (hlen : table.length ≠ 0)
    (ht : getColIndexWithAliases
      (mkColIndex (findHeaderRowWithTime table).2) "Time" < 0) :
    okMissingTime (parseWorkbookToNeededMetrics (.ok wb)) := by
  show okMissingTime (parseCore wb)
  unfold parseCore
  simp only [hsel, hlk]
  rw [if_neg hlen]
  simp only [roleLoop_eq, mkSeriesList, zipWith_cons_map]
  rw [if_pos ht]
  split
  · next hzero =>
    exfalso
    simp [NEEDED_MAP] at hzero
  · refine ⟨by simp, ?_, ?_⟩ <;>
    · intro x hx
      simp only [if_true, List.mem_map] at hx
      obtain ⟨cells, _, rfl⟩ := hx
      simp [timeEntry, if_neg (not_le.mpr ht)]

/-- Witness for C5: a sheet with header A and one numeric row has no
resolvable Time column yet parses ok with NaN times. -/
theorem parse_missing_time_ok_witness :
    (getColIndexWithAliases
      (mkColIndex (findHeaderRowWithTime
        [some [Cell.str "A"], some [Cell.num (some 1)]]).2) "Time" < 0) ∧
    okMissingTime (parseWorkbookToNeededMetrics
      (.ok ⟨["S"], [("S", [some [Cell.str "A"], some [Cell.num (some 1)]])]⟩)) :=
  ⟨by decide,
   parse_missing_time_ok
     ⟨["S"], [("S", [some [Cell.str "A"], some [Cell.num (some 1)]])]⟩ "S"
     [some [Cell.str "A"], some [Cell.num (some 1)]] rfl rfl (by decide)
     (by decide)⟩

theorem keptRows_length (rows : List (Option (List Cell))) :
    (keptRows rows).length = rows.countP rowKept := by
  induction rows with
  | nil => rfl
  | cons r rest ih =>
    cases r with
    | none =>
      have h2 : keptRows (none :: rest) = keptRows rest := rfl
      rw [h2, List.countP_cons, ih]
      simp [rowKept]
    | some cells =>
      by_cases hc : cells.isEmpty
      · have hc' : cells = [] := by simpa using hc
        have h2 : keptRows (some cells :: rest) = keptRows rest := by
          simp [keptRows, hc']
        rw [h2, List.countP_cons, ih]
        simp [rowKept, hc']
      · have hc' : cells ≠ [] := by simpa using hc
        have h2 : keptRows (some cells :: rest) = cells :: keptRows rest := by
          simp [keptRows, hc']
        rw [h2, List.countP_cons]
        simp [rowKept, hc', ih]

/-- Claim C10: inside the needed-metrics row loop, a null row or a row
with zero cells is skipped outright, so the common length of the time
sequence and of every value sequence is the count of surviving rows;
and a surviving row whose cells are all null still contributes one NaN
entry to the time sequence and to every series. -/
theorem roleLoop_row_handling (spec : List (String × String))
    (colIndex : ColIndex) (timeIdx : Int)
    (rows : List (Option (List Cell))) :
    ((roleLoop spec colIndex timeIdx true rows).1.length =
        rows.countP rowKept ∧
      ∀ vs ∈ (roleLoop spec colIndex timeIdx true rows).2,
        vs.length = rows.countP rowKept) ∧
    (∀ (r : Option (List Cell)) (rest : List (Option (List Cell))),
      rowKept r = false →
      roleLoop spec colIndex timeIdx true (r :: rest) =
        roleLoop spec colIndex timeIdx true rest) ∧
    (∀ (cells : List Cell) (rest : List (Option (List Cell))),
      cells ≠ [] → (∀ c ∈ cells, c = Cell.null) →
      (roleLoop spec colIndex timeIdx true (some cells :: rest)).1 =
        none :: (roleLoop spec colIndex timeIdx true rest).1 ∧
      (roleLoop spec colIndex timeIdx true (some cells :: rest)).2 =
        ((roleLoop spec colIndex timeIdx true rest).2).map
          (fun vs => none :: vs)) := by
  refine ⟨⟨?_, ?_⟩, ?_, ?_⟩
  · simp [roleLoop_eq, keptRows_length]
  · intro vs hvs
    simp only [roleLoop_eq, List.mem_map] at hvs
    obtain ⟨p, _, rfl⟩ := hvs
    simp [keptRows_length]
  · intro r rest hr
    cases r with
    | none => rfl
    | some cells =>
      have hc : cells.isEmpty := by simpa [rowKept] using hr
      simp [roleLoop, hc]
  · intro cells rest hne hall
    have hcv : ∀ j : Nat, cellToNumber (cells.get? j) = none := by
      intro j
      cases hg : cells.get? j with
      | none => rfl
      | some c =>
        have hm : c ∈ cells := List.get?_mem hg
        rw [hall c hm]
        rfl
    have hte : timeEntry timeIdx cells = none := by
      unfold timeEntry
      split
      · exact hcv _
      · rfl
    have hce : ∀ key, colEntry colIndex key cells = none := by
      intro key
      show (if 0 ≤ getColIndexWithAliases colIndex key then
          cellToNumber
            (cells.get? (getColIndexWithAliases colIndex key).toNat)
        else none) = none
      by_cases h : 0 ≤ getColIndexWithAliases colIndex key
      · rw [if_pos h]
        exact hcv _
      · rw [if_neg h]
    have hkept : keptRows (some cells :: rest) = cells :: keptRows rest := by
      simp [keptRows, hne]
    constructor
    · simp [roleLoop_eq, hkept, hte]
    · simp only [roleLoop_eq, hkept, List.map_cons, List.map_map]
      refine List.map_congr_left ?_
      intro p _
      simp [hce]

/-- Witness for C10: a null row is skipped, and an all-null one-cell row
contributes NaN everywhere. -/
theorem roleLoop_row_handling_witness :
    roleLoop [("L", "K")] [] (-1) true (none :: [some [Cell.null]]) =
      roleLoop [("L", "K")] [] (-1) true [some [Cell.null]] ∧
    (roleLoop [("L", "K")] [] (-1) true (some [Cell.null] :: [])).1 =
      none :: (roleLoop [("L", "K")] [] (-1) true []).1 ∧
    (roleLoop [("L", "K")] [] (-1) true [none, some [Cell.null]]).1.length =
      [none, some [Cell.null]].countP rowKept :=
  ⟨(roleLoop_row_handling [("L", "K")] [] (-1)
      [some [Cell.null]]).2.1 none [some [Cell.null]] rfl,
   ((roleLoop_row_handling [("L", "K")] [] (-1) []).2.2 [Cell.null] []
      (by decide) (by decide)).1,
   (roleLoop_row_handling [("L", "K")] [] (-1)
      [none, some [Cell.null]]).1.1⟩

/-- The per-row time value when a time key `k` was inferred: the parsed
cell, divided by 1000 exactly when a millisecond-marker key exists or
the value exceeds 50 while the mean absolute successive difference of
the column exceeds 10. -/
def msAdjustedTime (rowsRaw : List JsObj) (k : String) (r : JsObj) :
    Option ℚ :=
  let n := cellToNumber (objGet r k)
  if (msKeyFind rowsRaw).isSome ||
      (qGt n 50 && qGt (averageDelta rowsRaw k) 10) then
    n.map (fun x => x / 1000)
  else n

theorem normalizeSheet_timeKey_t (rowsRaw : List JsObj)
    (fpsGuess : Option ℚ) (dateParse : String → Option ℚ) (k : String)
    (htk : timeKeyFind rowsRaw = some k) :
    (normalizeSheet rowsRaw fpsGuess dateParse).map (fun r => r.t) =
      rowsRaw.map (msAdjustedTime rowsRaw k) := by
  by_cases he : rowsRaw.isEmpty
  · have h0 : rowsRaw = [] := by simpa using he
    subst h0
    rfl
  · unfold normalizeSheet
    rw [if_neg he]
    rw [List.map_map]
    refine List.map_congr_left ?_
    intro r _
    show rowT rowsRaw fpsGuess dateParse r = msAdjustedTime rowsRaw k r
    unfold rowT msAdjustedTime
    rw [htk]

/-- Claim C6: in the row normalizer, a parsed time value is divided by
1000 exactly when a millisecond-marker key is present or the value
exceeds 50 while the mean absolute successive difference of the column
exceeds 10; in particular the time column 0,120,240,360 with no
millisecond key becomes 0, 0.12, 0.24, 0.36 seconds. -/
theorem normalizeSheet_ms_heuristic :
    ((normalizeSheet
        [[("Time", Cell.num (some 0))], [("Time", Cell.num (some 120))],
         [("Time", Cell.num (some 240))], [("Time", Cell.num (some 360))]]
        (some 120) (fun _ => none)).map (fun r => r.t) =
      [some 0, some (3 / 25 : ℚ), some (6 / 25 : ℚ), some (9 / 25 : ℚ)]) ∧
    (∀ (rowsRaw : List JsObj) (fpsGuess : Option ℚ)
        (dateParse : String → Option ℚ) (k : String),
      timeKeyFind rowsRaw = some k →
      (normalizeSheet rowsRaw fpsGuess dateParse).map (fun r => r.t) =
        rowsRaw.map (msAdjustedTime rowsRaw k)) :=
  ⟨by decide, normalizeSheet_timeKey_t⟩

/-- Witness for C6 at a one-row sheet with time key "time". -/
theorem normalizeSheet_ms_heuristic_witness :
    timeKeyFind [[("time", Cell.num (some 1))]] = some "time" ∧
    (normalizeSheet [[("time", Cell.num (some 1))]] (some 120)
        (fun _ => none)).map (fun r => r.t) =
      [[("time", Cell.num (some 1))]].map
        (msAdjustedTime [[("time", Cell.num (some 1))]] "time") :=
  ⟨by decide,
   normalizeSheet_ms_heuristic.2 [[("time", Cell.num (some 1))]]
     (some 120) (fun _ => none) "time" (by decide)⟩

/-- Counterexample for C7: a sheet whose only key is "timestamp" with
numeric values 5000 and 6000.  The claim predicts t = 0 and 1 (subtract
the first valid timestamp, divide by 1000); the code instead selects the
timestamp key as the time key, applies the millisecond heuristic and no
baseline subtraction, producing t = 5 and 6. -/
theorem normalizeSheet_timestamp_cex :
    (normalizeSheet
        [[("timestamp", Cell.num (some 5000))],
         [("timestamp", Cell.num (some 6000))]]
        (some 120) (fun _ => none)).map (fun r => r.t) =
      [some 5, some 6] ∧
    ¬ ((normalizeSheet
        [[("timestamp", Cell.num (some 5000))],
         [("timestamp", Cell.num (some 6000))]]
        (some 120) (fun _ => none)).map (fun r => r.t) =
      [some 0, some 1]) := by
  constructor
  · decide
  · decide

theorem jsOr_eq_none {α : Type} (a b : Option α) (h : jsOr a b = none) :
    a = none ∧ b = none := by
  cases a with
  | none => exact ⟨rfl, h⟩
  | some x => exact absurd h (by simp [jsOr])

/-- Claim C7 amended: a key containing "timestamp" (with no exact t/time
key) is itself selected as the time key by the key-inference priority,
so such a column is parsed numerically under the millisecond heuristic
with no baseline subtraction; the timestamp branch with `Date.parse`
and first-sample subtraction is unreachable, hence the output never
depends on the host date parser. -/
theorem normalizeSheet_timestamp_amended :
    (∀ (rowsRaw : List JsObj) (fpsGuess : Option ℚ)
        (dp dp' : String → Option ℚ),
      normalizeSheet rowsRaw fpsGuess dp =
        normalizeSheet rowsRaw fpsGuess dp') ∧
    (∀ (rowsRaw : List JsObj) (fpsGuess : Option ℚ)
        (dateParse : String → Option ℚ) (k : String),
      (nsKeys rowsRaw).find? isTimeNameKey = none →
      (nsKeys rowsRaw).find? hasTimestampKey = some k →
      timeKeyFind rowsRaw = some k ∧
      (normalizeSheet rowsRaw fpsGuess dateParse).map (fun r => r.t) =
        rowsRaw.map (msAdjustedTime rowsRaw k)) := by
  constructor
  · intro rowsRaw fpsGuess dp dp'
    by_cases he : rowsRaw.isEmpty
    · unfold normalizeSheet
      rw [if_pos he, if_pos he]
    · unfold normalizeSheet
      rw [if_neg he, if_neg he]
      refine List.map_congr_left ?_
      intro r _
      have hfields : rowFields rowsRaw r = rowFields rowsRaw r := rfl
      suffices hT : rowT rowsRaw fpsGuess dp r = rowT rowsRaw fpsGuess dp' r by
        rw [show RowL.mk (rowT rowsRaw fpsGuess dp r) (rowFields rowsRaw r) =
          RowL.mk (rowT rowsRaw fpsGuess dp' r) (rowFields rowsRaw r) from
          by rw [hT]]
      cases htk : timeKeyFind rowsRaw with
      | some tk => unfold rowT; rw [htk]
      | none =>
        have hts : (nsKeys rowsRaw).find? hasTimestampKey = none :=
          (jsOr_eq_none _ _ htk).2
        cases hfk : frameKeyFind rowsRaw with
        | some fk => unfold rowT; rw [htk, hfk]
        | none => unfold rowT; rw [htk, hfk, hts]
  · intro rowsRaw fpsGuess dateParse k htn hts
    have htk : timeKeyFind rowsRaw = some k := by
      unfold timeKeyFind
      rw [htn, hts]
      rfl
    exact ⟨htk,
      normalizeSheet_timeKey_t rowsRaw fpsGuess dateParse k htk⟩

/-- Witness for C7 at the timestamp-only sheet. -/
theorem normalizeSheet_timestamp_amended_witness :
    (nsKeys [[("timestamp", Cell.num (some 5000))]]).find?
      isTimeNameKey = none ∧
    timeKeyFind [[("timestamp", Cell.num (some 5000))]] =
      some "timestamp" ∧
    (normalizeSheet [[("timestamp", Cell.num (some 5000))]] (some 120)
        (fun _ => none)).map (fun r => r.t) =
      [[("timestamp", Cell.num (some 5000))]].map
        (msAdjustedTime [[("timestamp", Cell.num (some 5000))]]
          "timestamp") :=
  ⟨by decide,
   (normalizeSheet_timestamp_amended.2 [[("timestamp", Cell.num (some 5000))]]
     (some 120) (fun _ => none) "timestamp" (by decide) (by decide)).1,
   (normalizeSheet_timestamp_amended.2 [[("timestamp", Cell.num (some 5000))]]
     (some 120) (fun _ => none) "timestamp" (by decide) (by decide)).2⟩

theorem selLoop_none (l : List ℤ) : ∀ (i : Nat) (bs : ℤ) (bi : Nat),
    (∀ s ∈ l, s ≤ bs) → selLoop l i bs bi = bi := by
  induction l with
  | nil => intro i bs bi _; rfl
  | cons s rest ih =>
    intro i bs bi h
    have hs : ¬ bs < s := not_lt.mpr (h s (List.mem_cons_self s rest))
    show (if bs < s then selLoop rest (i + 1) s i
      else selLoop rest (i + 1) bs bi) = bi
    rw [if_neg hs]
    exact ih (i + 1) bs bi (fun x hx => h x (List.mem_cons_of_mem s hx))

theorem selLoop_argmax (l : List ℤ) : ∀ (i : Nat) (bs : ℤ) (bi : Nat),
    (∃ s ∈ l, bs < s) →
    ∃ j, ∃ h : j < l.length, selLoop l i bs bi = i + j ∧
      bs < l.get ⟨j, h⟩ ∧
      (∀ m (hm : m < l.length), l.get ⟨m, hm⟩ ≤ l.get ⟨j, h⟩) ∧
      (∀ m (hm : m < j), l.get ⟨m, Nat.lt_trans hm h⟩ < l.get ⟨j, h⟩) := by
  induction l with
  | nil =>
    intro i bs bi h
    simp at h
  | cons s rest ih =>
    intro i bs bi hex
    by_cases hs : bs < s
    · by_cases hrest : ∃ x ∈ rest, s < x
      · obtain ⟨j, hj, heq, hgt, hmax, hfirst⟩ := ih (i + 1) s i hrest
        refine ⟨j + 1, Nat.succ_lt_succ hj, ?_, ?_, ?_, ?_⟩
        · show (if bs < s then selLoop rest (i + 1) s i
            else selLoop rest (i + 1) bs bi) = i + (j + 1)
          rw [if_pos hs, heq]
          omega
        · exact lt_trans hs hgt
        · intro m hm
          cases m with
          | zero => exact le_of_lt hgt
          | succ m => exact hmax m (Nat.lt_of_succ_lt_succ hm)
        · intro m hm
          cases m with
          | zero => exact hgt
          | succ m => exact hfirst m (Nat.lt_of_succ_lt_succ hm)
      · push_neg at hrest
        refine ⟨0, Nat.succ_pos _, ?_, hs, ?_, ?_⟩
        · show (if bs < s then selLoop rest (i + 1) s i
            else selLoop rest (i + 1) bs bi) = i + 0
          rw [if_pos hs, selLoop_none rest (i + 1) s i hrest]
          omega
        · intro m hm
          cases m with
          | zero => exact le_refl _
          | succ m => exact hrest _ (List.get_mem rest _ _)
        · intro m hm
          exact absurd hm (Nat.not_lt_zero m)
    · have hrest : ∃ x ∈ rest, bs < x := by
        obtain ⟨x, hx, hbx⟩ := hex
        rcases List.mem_cons.mp hx with h0 | hm
        · exact absurd (h0 ▸ hbx) hs
        · exact ⟨x, hm, hbx⟩
      obtain ⟨j, hj, heq, hgt, hmax, hfirst⟩ := ih (i + 1) bs bi hrest
      refine ⟨j + 1, Nat.succ_lt_succ hj, ?_, hgt, ?_, ?_⟩
      · show (if bs < s then selLoop rest (i + 1) s i
          else selLoop rest (i + 1) bs bi) = i + (j + 1)
        rw [if_neg hs, heq]
        omega
      · intro m hm
        cases m with
        | zero => exact le_of_lt (lt_of_le_of_lt (not_lt.mp hs) hgt)
        | succ m => exact hmax m (Nat.lt_of_succ_lt_succ hm)
      · intro m hm
        cases m with
        | zero => exact lt_of_le_of_lt (not_lt.mp hs) hgt
        | succ m => exact hfirst m (Nat.lt_of_succ_lt_succ hm)

theorem scanScores_length (table : Grid) :
    (scanScores table).length = min 20 table.length := by
  simp [scanScores]

theorem scanScores_get (table : Grid) (j : Nat)
    (hj : j < (scanScores table).length) :
    (scanScores table).get ⟨j, hj⟩ = rowScore (getRow table j) := by
  have hj20 : j < 20 := by
    have := hj
    rw [scanScores_length] at this
    omega
  have hjl : j < table.length := by
    have := hj
    rw [scanScores_length] at this
    omega
  simp only [scanScores, List.get_eq_getElem, List.getElem_map,
    List.getElem_take, getRow]
  congr 1
  rw [List.getD_eq_getElem?_getD, List.getElem?_eq_getElem hjl]
  rfl

/-- Counterexample for C4: on the grid with rows [null] and ["x"], the
scores are −3 and −2, so the row with the strictly greatest score is row
1, yet the detector returns row 0: the selection loop starts from a
sentinel best score of −1 at index 0 that no row beats. -/
theorem detect_header_selection_cex :
    detectBestIdx [some [Cell.null], some [Cell.str "x"]] = 0 ∧
    rowScore (getRow [some [Cell.null], some [Cell.str "x"]] 0) <
      rowScore (getRow [some [Cell.null], some [Cell.str "x"]] 1) := by
  exact ⟨by decide, by decide⟩

/-- Claim C4 amended: the detector scans the first min(20, rows) rows
with the stated scoring and is deterministic; when some scanned row
scores above −1 (the initial best of the loop) it selects the row with
the strictly greatest score, ties resolved to the lowest index, but
when every scanned row scores −1 or below it falls back to row index
0 regardless of where the maximum lies. -/
theorem detect_header_selection_amended (table : Grid) :
    ((∀ j, j < min 20 table.length → rowScore (getRow table j) ≤ -1) →
      detectBestIdx table = 0) ∧
    ((∃ j, j < min 20 table.length ∧ -1 < rowScore (getRow table j)) →
      detectBestIdx table < min 20 table.length ∧
      (∀ m, m < min 20 table.length →
        rowScore (getRow table m) ≤
          rowScore (getRow table (detectBestIdx table))) ∧
      (∀ m, m < detectBestIdx table →
        rowScore (getRow table m) <
          rowScore (getRow table (detectBestIdx table)))) := by
  constructor
  · intro h
    refine selLoop_none (scanScores table) 0 (-1) 0 ?_
    intro s hs
    obtain ⟨⟨j, hj⟩, rfl⟩ := List.mem_iff_get.mp hs
    rw [scanScores_get]
    exact h j (by rw [← scanScores_length]; exact hj)
  · intro ⟨j, hj, hgt⟩
    have hj' : j < (scanScores table).length := by
      rw [scanScores_length]; exact hj
    have hex : ∃ s ∈ scanScores table, (-1 : ℤ) < s := by
      refine ⟨(scanScores table).get ⟨j, hj'⟩, List.get_mem _ _ _, ?_⟩
      rw [scanScores_get]
      exact hgt
    obtain ⟨b, hb, heq, _, hmax, hfirst⟩ :=
      selLoop_argmax (scanScores table) 0 (-1) 0 hex
    have hdet : detectBestIdx table = b := by
      show selLoop (scanScores table) 0 (-1) 0 = b
      rw [heq]
      omega
    have hbl : b < min 20 table.length := by
      rw [← scanScores_length]; exact hb
    rw [hdet]
    refine ⟨hbl, ?_, ?_⟩
    · intro m hm
      have hm' : m < (scanScores table).length := by
        rw [scanScores_length]; exact hm
      have := hmax m hm'
      rw [scanScores_get, scanScores_get] at this
      exact this
    · intro m hm
      have := hfirst m hm
      rw [scanScores_get, scanScores_get] at this
      exact this

/-- Witness for C4: a grid whose only row scores 2 exercises the argmax
branch; a grid whose only row is a null cell (score −3) exercises the
fallback-to-0 branch. -/
theorem detect_header_selection_amended_witness :
    detectBestIdx [some [Cell.null]] = 0 ∧
    (detectBestIdx [some [Cell.str "a", Cell.str "b"]] <
        min 20 [some [Cell.str "a", Cell.str "b"]].length ∧
      (∀ m, m < min 20 [some [Cell.str "a", Cell.str "b"]].length →
        rowScore (getRow [some [Cell.str "a", Cell.str "b"]] m) ≤
          rowScore (getRow [some [Cell.str "a", Cell.str "b"]]
            (detectBestIdx [some [Cell.str "a", Cell.str "b"]]))) ∧
      (∀ m, m < detectBestIdx [some [Cell.str "a", Cell.str "b"]] →
        rowScore (getRow [some [Cell.str "a", Cell.str "b"]] m) <
          rowScore (getRow [some [Cell.str "a", Cell.str "b"]]
            (detectBestIdx [some [Cell.str "a", Cell.str "b"]])))) :=
  ⟨(detect_header_selection_amended [some [Cell.null]]).1
      (by
        intro j hj
        have hj0 : j = 0 := by
          have h1 : j < 1 := by simpa using hj
          omega
        subst hj0
        decide),
   (detect_header_selection_amended [some [Cell.str "a", Cell.str "b"]]).2
      ⟨0, by decide, by decide⟩⟩

/-- The decimal digit string of a natural number, by structural
recursion on the value; shown below to agree with the fuelled
`Nat.toDigitsCore` behind `Nat.repr`. -/
def natDigitsAux (n : Nat) : List Char :=
  if _h : n < 10 then [Nat.digitChar n]
  else natDigitsAux (n / 10) ++ [Nat.digitChar (n % 10)]
decreasing_by exact Nat.div_lt_self (by omega) (by omega)

theorem toDigitsCore_eq_natDigitsAux :
    ∀ (fuel n : Nat) (ds : List Char), n < fuel →
      Nat.toDigitsCore 10 fuel n ds = natDigitsAux n ++ ds := by
  intro fuel
  induction fuel with
  | zero => intro n ds h; omega
  | succ f ih =>
    intro n ds h
    by_cases h0 : n / 10 = 0
    · have hn : n < 10 := by omega
      simp [Nat.toDigitsCore, natDigitsAux, h0, hn, Nat.mod_eq_of_lt hn]
    · have hge : 10 ≤ n := by
        rcases Nat.lt_or_ge n 10 with hlt | hge
        · exact absurd (Nat.div_eq_of_lt hlt) h0
        · exact hge
      have hlt : n / 10 < f := by
        have hd : n / 10 < n := Nat.div_lt_self (by omega) (by omega)
        omega
      have hstep : Nat.toDigitsCore 10 (f + 1) n ds =
          Nat.toDigitsCore 10 f (n / 10) (Nat.digitChar (n % 10) :: ds) := by
        simp [Nat.toDigitsCore, h0]
      rw [hstep, ih _ _ hlt]
      have hx : natDigitsAux n =
          natDigitsAux (n / 10) ++ [Nat.digitChar (n % 10)] := by
        rw [natDigitsAux]
        exact dif_neg (by omega)
      rw [hx]
      simp

/-- Decimal decoding of a digit character list. -/
def decodeNat (l : List Char) : Nat :=
  l.foldl (fun a c => a * 10 + charDigit c) 0

theorem charDigit_digitChar (d : Nat) (h : d < 10) :
    charDigit (Nat.digitChar d) = d := by
  interval_cases d <;> rfl

theorem decodeNat_natDigitsAux (n : Nat) :
    decodeNat (natDigitsAux n) = n := by
  induction n using Nat.strong_induction_on with
  | _ n ih =>
    by_cases h : n < 10
    · rw [natDigitsAux, dif_pos h]
      show 0 * 10 + charDigit (Nat.digitChar n) = n
      rw [charDigit_digitChar n h]
      omega
    · rw [natDigitsAux, dif_neg h]
      rw [decodeNat, List.foldl_append]
      have ihd := ih (n / 10) (Nat.div_lt_self (by omega) (by omega))
      rw [decodeNat] at ihd
      rw [ihd]
      show n / 10 * 10 + charDigit (Nat.digitChar (n % 10)) = n
      rw [charDigit_digitChar _ (Nat.mod_lt n (by omega))]
      omega

theorem natRepr_injective (m n : Nat) (h : Nat.repr m = Nat.repr n) :
    m = n := by
  have hd : Nat.toDigits 10 m = Nat.toDigits 10 n := by
    have := congrArg String.data h
    simpa [Nat.repr, List.asString] using this
  have hm : Nat.toDigits 10 m = natDigitsAux m := by
    show Nat.toDigitsCore 10 (m + 1) m [] = _
    rw [toDigitsCore_eq_natDigitsAux (m + 1) m [] (Nat.lt_succ_self m)]
    simp
  have hn : Nat.toDigits 10 n = natDigitsAux n := by
    show Nat.toDigitsCore 10 (n + 1) n [] = _
    rw [toDigitsCore_eq_natDigitsAux (n + 1) n [] (Nat.lt_succ_self n)]
    simp
  have : natDigitsAux m = natDigitsAux n := by rw [← hm, ← hn, hd]
  calc m = decodeNat (natDigitsAux m) := (decodeNat_natDigitsAux m).symm
    _ = decodeNat (natDigitsAux n) := by rw [this]
    _ = n := decodeNat_natDigitsAux n

theorem amGet_amSet_self {α : Type} (m : List (String × α)) (k : String)
    (v : α) : amGet (amSet m k v) k = some v := by
  induction m with
  | nil => simp [amSet, amGet]
  | cons p rest ih =>
    by_cases h : p.1 == k
    · simp [amSet, h, amGet]
    · simp only [amSet, h, Bool.false_eq_true, if_false]
      simp only [amGet, List.find?, h]
      exact ih

theorem amGet_amSet_ne {α : Type} (m : List (String × α)) (k k2 : String)
    (v : α) (hne : k2 ≠ k) : amGet (amSet m k v) k2 = amGet m k2 := by
  induction m with
  | nil =>
    simp only [amSet, amGet, List.find?]
    have hkk : ¬ (k == k2) := by
      rw [beq_iff_eq]
      exact fun he => hne he.symm
    simp [hkk]
  | cons p rest ih =>
    by_cases h : p.1 == k
    · have hp : p.1 = k := by simpa using h
      have h2 : ¬ (k == k2) := by
        rw [beq_iff_eq]
        exact fun he => hne he.symm
      have h3 : ¬ (p.1 == k2) := by simpa [hp] using h2
      simp only [amSet, h, if_true]
      simp only [amGet, List.find?, h2, h3]
    · simp only [amSet, h, Bool.false_eq_true, if_false]
      by_cases h4 : p.1 == k2
      · simp only [amGet, List.find?, h4]
      · simp only [amGet, List.find?, h4] at ih ⊢
        exact ih

/-- The rendering of occurrence number c of a base label. -/
def renderCount (b : String) (c : Nat) : String :=
  if c = 1 then b else b ++ " (" ++ Nat.repr c ++ ")"

theorem dedupeAux_get (hs : List String) :
    ∀ (seen : List (String × Nat)) (j : Nat) (b : String),
      hs.get? j = some b → b ≠ "" →
      (dedupeAux hs seen).get? j =
        some (renderCount b
          ((amGet seen b).getD 0 + 1 + (hs.take j).count b)) := by
  induction hs with
  | nil =>
    intro seen j b hg _
    simp at hg
  | cons h rest ih =>
    intro seen j b hg hb
    cases j with
    | zero =>
      have hhb : h = b := by simpa using hg
      subst hhb
      have hne : ¬ (h == "") := by simpa using hb
      show ((if h == "" then h :: dedupeAux rest seen
        else (if (amGet seen h).getD 0 + 1 = 1 then h
          else h ++ " (" ++ Nat.repr ((amGet seen h).getD 0 + 1) ++ ")") ::
            dedupeAux rest
              (amSet seen h ((amGet seen h).getD 0 + 1))).get? 0) = _
      rw [if_neg (by simpa using hne)]
      simp [renderCount]
    | succ j =>
      have hgr : rest.get? j = some b := by simpa using hg
      by_cases hhe : h == ""
      · have hh0 : h = "" := by simpa using hhe
        have hhb2 : ¬ (h == b) := by
          rw [beq_iff_eq, hh0]
          exact fun he => hb he.symm
      -- output keeps the empty label and the seen map unchanged
        show ((if h == "" then h :: dedupeAux rest seen
          else (if (amGet seen h).getD 0 + 1 = 1 then h
            else h ++ " (" ++ Nat.repr ((amGet seen h).getD 0 + 1) ++ ")") ::
              dedupeAux rest
                (amSet seen h ((amGet seen h).getD 0 + 1))).get? (j + 1)) = _
        rw [if_pos hhe]
        show (dedupeAux rest seen).get? j = _
        rw [ih seen j b hgr hb]
        have hc : ((h :: rest).take (j + 1)).count b =
            (rest.take j).count b := by
          simp [List.count_cons, hhb2]
        rw [hc]
      · have hh0 : h ≠ "" := by simpa using hhe
        show ((if h == "" then h :: dedupeAux rest seen
          else (if (amGet seen h).getD 0 + 1 = 1 then h
            else h ++ " (" ++ Nat.repr ((amGet seen h).getD 0 + 1) ++ ")") ::
              dedupeAux rest
                (amSet seen h ((amGet seen h).getD 0 + 1))).get? (j + 1)) = _
        rw [if_neg (by simpa using hhe)]
        show (dedupeAux rest
          (amSet seen h ((amGet seen h).getD 0 + 1))).get? j = _
        rw [ih (amSet seen h ((amGet seen h).getD 0 + 1)) j b hgr hb]
        by_cases hhb : h = b
        · subst hhb
          rw [amGet_amSet_self]
          have hc : ((h :: rest).take (j + 1)).count h =
              (rest.take j).count h + 1 := by
            simp [List.count_cons]
          rw [hc]
          congr 1
          rw [renderCount, renderCount]
          have harg : (some ((amGet seen h).getD 0 + 1)).getD 0 + 1 +
              (rest.take j).count h =
              (amGet seen h).getD 0 + 1 + ((rest.take j).count h + 1) := by
            simp
            omega
          rw [harg]
        · rw [amGet_amSet_ne seen h b _ (fun he => hhb he.symm)]
          have hc : ((h :: rest).take (j + 1)).count b =
              (rest.take j).count b := by
            simp [List.count_cons]
            exact hhb
          rw [hc]

theorem renderCount_ne (b : String) (m n : Nat) (hm : 1 ≤ m)
    (hmn : m < n) : renderCount b m ≠ renderCount b n := by
  intro he
  by_cases h1 : m = 1
  · subst h1
    have hn1 : n ≠ 1 := by omega
    rw [renderCount, if_pos rfl, renderCount, if_neg hn1] at he
    have hlen := congrArg String.length he
    simp only [String.length_append] at hlen
    have e1 : (" (" : String).length = 2 := by decide
    have e2 : (")" : String).length = 1 := by decide
    omega
  · have hn1 : n ≠ 1 := by omega
    rw [renderCount, if_neg h1, renderCount, if_neg hn1] at he
    have hdata := congrArg String.data he
    simp only [String.data_append, List.append_assoc] at hdata
    have h3 := List.append_cancel_left hdata
    have h4 := List.append_cancel_left h3
    have h5 := List.append_cancel_right h4
    have h6 : Nat.repr m = Nat.repr n := congrArg String.mk h5
    exact absurd (natRepr_injective m n h6) (by omega)

/-- Counterexample for C8: the input labels A, "A (2)", A pass through
cleanup unchanged except that the second A is suffixed to "A (2)",
colliding with the untouched middle label: two equal non-empty output
labels. -/
theorem dedupe_collision_cex :
    cleanupHeaders ["A", "A (2)", "A"] = ["A", "A (2)", "A (2)"] ∧
    (cleanupHeaders ["A", "A (2)", "A"]).get? 1 =
      (cleanupHeaders ["A", "A (2)", "A"]).get? 2 ∧
    (cleanupHeaders ["A", "A (2)", "A"]).get? 1 = some "A (2)" ∧
    "A (2)" ≠ "" :=
  ⟨by decide, by decide, by decide, by decide⟩

/-- Claim C8 amended: the duplicate suffixing guarantees that two
occurrences of one and the same non-empty base label always receive
distinct output labels (the first keeps the base, occurrence n gets the
" (n)" suffix and distinct occurrence numbers render differently); it
does not guarantee global uniqueness, because an input label may
coincide with the suffixed form of another label. -/
theorem dedupe_same_base_distinct (hs : List String) (i j : Nat)
    (b : String) (hij : i < j) (hgi : hs.get? i = some b)
    (hgj : hs.get? j = some b) (hb : b ≠ "") :
    ∃ oi oj, (dedupeHeaders hs).get? i = some oi ∧
      (dedupeHeaders hs).get? j = some oj ∧ oi ≠ oj := by
  have hi := dedupeAux_get hs [] i b hgi hb
  have hj := dedupeAux_get hs [] j b hgj hb
  refine ⟨_, _, hi, hj, ?_⟩
  have hcount : (hs.take i).count b < (hs.take j).count b := by
    have h1 : (hs.take (i + 1)).count b = (hs.take i).count b + 1 := by
      have hgi2 : hs[i]? = some b := by
        rw [← List.get?_eq_getElem?]
        exact hgi
      rw [List.take_succ, hgi2]
      simp
    have h2 : (hs.take (i + 1)).count b ≤ (hs.take j).count b := by
      have heq : hs.take (i + 1) = (hs.take j).take (i + 1) := by
        rw [List.take_take]
        congr 1
        omega
      rw [heq]
      exact (List.take_sublist _ _).count_le b
    omega
  exact renderCount_ne b _ _ (by omega) (by omega)

/-- Witness for C8: two occurrences of B produce B and "B (2)". -/
theorem dedupe_same_base_distinct_witness :
    ∃ oi oj, (dedupeHeaders ["B", "B"]).get? 0 = some oi ∧
      (dedupeHeaders ["B", "B"]).get? 1 = some oj ∧ oi ≠ oj :=
  dedupe_same_base_distinct ["B", "B"] 0 1 "B" (by decide) (by decide)
    (by decide) (by decide)
